import Mathlib

/-!
Verification of the live-process introspection engine of `peda.py` against its
specification.  The Python source is shallowly embedded: backend queries
(register reads, memory reads, expression evaluation, disassembly) become
oracle function parameters, Python dicts become ordered association lists,
Python exceptions become `Except String`, and machine integers become `Int`
(gdb register/address values are unbounded Python ints in the source).
-/

namespace Peda

/-- Python's substring test `needle in hay` on strings. -/
def containsSub (needle hay : String) : Bool :=
  hay.toList.tails.any (fun t => needle.toList.isPrefixOf t)

/-- Python's `s.startswith(pre)`. -/
def pyStartswith (pre s : String) : Bool :=
  pre.toList.isPrefixOf s.toList

/-- Python dict lookup `d[k]` on a string-keyed dict of booleans: the value if
the key is present, otherwise a `KeyError`. -/
def dget (d : List (String × Bool)) (k : String) : Except String Bool :=
  match d.find? (fun p => p.1 == k) with
  | some p => .ok p.2
  | none => .error ("KeyError: " ++ k)

/-- Python's short-circuit `or` in boolean context: the right operand is not
evaluated (so cannot raise) when the left one is true. -/
def orE (a b : Except String Bool) : Except String Bool :=
  match a with
  | .error e => .error e
  | .ok true => .ok true
  | .ok false => b

/-- Python's short-circuit `and` in boolean context: the right operand is not
evaluated (so cannot raise) when the left one is false. -/
def andE (a b : Except String Bool) : Except String Bool :=
  match a with
  | .error e => .error e
  | .ok true => b
  | .ok false => .ok false

/-- Python `not x` applied to a possibly-raising operand. -/
def notE (a : Except String Bool) : Except String Bool :=
  match a with
  | .error e => .error e
  | .ok x => .ok (!x)

/-- Python `x == y` on two possibly-raising boolean operands. -/
def eqE (a b : Except String Bool) : Except String Bool :=
  match a with
  | .error e => .error e
  | .ok x =>
    match b with
    | .error e => .error e
    | .ok y => .ok (x == y)

/-- Python `x != y` on two possibly-raising boolean operands. -/
def neE (a b : Except String Bool) : Except String Bool :=
  match a with
  | .error e => .error e
  | .ok x =>
    match b with
    | .error e => .error e
    | .ok y => .ok (x != y)

/-- A right-nested chain `c1 or c2 or ... or cn` of Python booleans in a
single `if` condition; `orE (.ok false) x = x` and `orE c (.ok false) = c`
make the fold equal to the literal nesting. -/
def orChain (l : List (Except String Bool)) : Except String Bool :=
  l.foldr orE (.ok false)

/-- Python `bool(e & (1 << k))` for an arbitrary (possibly negative,
two's-complement-viewed) integer `e`: bit `k` of the floor representation. -/
def pyBit (e : Int) (k : Nat) : Bool :=
  Int.emod (Int.ediv e ((2 : Int) ^ k)) 2 == 1

/-- The x86 flag dict shape built by `get_eflags`, with one boolean per named
flag (indices are the EFLAGS bit positions of peda.py lines 1232-1240). -/
def eflagsDict (b0 b2 b4 b6 b7 b8 b9 b10 b11 : Bool) : List (String × Bool) :=
  [("CF", b0), ("PF", b2), ("AF", b4), ("ZF", b6), ("SF", b7), ("TF", b8),
   ("IF", b9), ("DF", b10), ("OF", b11)]

/-- Embedding of get_eflags (peda.py lines 1224-1256): builds the named x86 flag dict from
the `eflags` register value, or `None` when the register is unavailable.
`if not eflags` also treats a zero register value as unavailable. -/
def get_eflags (eflags : Option Int) : Option (List (String × Bool)) :=
  match eflags with
  | none => none
  | some e =>
    if e = 0 then none
    else some (eflagsDict (pyBit e 0) (pyBit e 2) (pyBit e 4) (pyBit e 6)
      (pyBit e 7) (pyBit e 8) (pyBit e 9) (pyBit e 10) (pyBit e 11))

/-- Shape of the ARM CPSR flag dict built by get_cpsr (peda.py lines 1258-1295). -/
def cpsrDict (t f i a e ge j q v c z n : Bool) : List (String × Bool) :=
  [("T", t), ("F", f), ("I", i), ("A", a), ("E", e), ("GE", ge), ("J", j),
   ("Q", q), ("V", v), ("C", c), ("Z", z), ("N", n)]

/-- Embedding of get_cpsr (peda.py lines 1258-1295): the ARM CPSR flag dict,
or none when the register is unavailable; unlike get_eflags, a zero register
value is kept (`if cpsr is None`). -/
def get_cpsr (cpsr : Option Int) : Option (List (String × Bool)) :=
  match cpsr with
  | none => none
  | some c =>
    some (cpsrDict (pyBit c 5) (pyBit c 6) (pyBit c 7) (pyBit c 8) (pyBit c 9)
      (!(Int.emod (Int.ediv c ((2 : Int) ^ 16)) 8 == 0))
      (pyBit c 24) (pyBit c 27) (pyBit c 28) (pyBit c 29) (pyBit c 30)
      (pyBit c 31))

/-- Shape of the AArch64 CPSR flag dict built by get_aarch64_cpsr (peda.py
lines 1297-1326); note it has keys F, I, A, D, V, C, Z, N only — no key "O". -/
def a64Dict (f i a d v c z n : Bool) : List (String × Bool) :=
  [("F", f), ("I", i), ("A", a), ("D", d), ("V", v), ("C", c), ("Z", z), ("N", n)]

/-- Embedding of get_aarch64_cpsr (peda.py lines 1297-1326). -/
def get_aarch64_cpsr (cpsr : Option Int) : Option (List (String × Bool)) :=
  match cpsr with
  | none => none
  | some c =>
    some (a64Dict (pyBit c 6) (pyBit c 7) (pyBit c 8) (pyBit c 9) (pyBit c 28)
      (pyBit c 29) (pyBit c 30) (pyBit c 31))

/-- The x86 condition table of `testjump` (peda.py lines 1444-1461): the
big `or`-joined condition of the single `if`. -/
def testjump_cond (flags : List (String × Bool)) (opcode : String) :
    Except String Bool :=
  orChain
      [.ok (opcode == "ret"),
       .ok (opcode == "jmp"),
       andE (.ok (opcode == "je")) (dget flags "ZF"),
       andE (.ok (opcode == "jne")) (notE (dget flags "ZF")),
       andE (andE (.ok (opcode == "jg")) (notE (dget flags "ZF")))
            (eqE (dget flags "SF") (dget flags "OF")),
       andE (.ok (opcode == "jge")) (eqE (dget flags "SF") (dget flags "OF")),
       andE (andE (.ok (opcode == "ja")) (notE (dget flags "CF")))
            (notE (dget flags "ZF")),
       andE (.ok (opcode == "jae")) (notE (dget flags "CF")),
       andE (.ok (opcode == "jl")) (neE (dget flags "SF") (dget flags "OF")),
       andE (.ok (opcode == "jle"))
            (orE (dget flags "ZF") (neE (dget flags "SF") (dget flags "OF"))),
       andE (.ok (opcode == "jb")) (dget flags "CF"),
       andE (.ok (opcode == "jbe")) (orE (dget flags "CF") (dget flags "ZF")),
       andE (.ok (opcode == "jo")) (dget flags "OF"),
       andE (.ok (opcode == "jno")) (notE (dget flags "OF")),
       andE (.ok (opcode == "jz")) (dget flags "ZF"),
       andE (.ok (opcode == "jnz")) (dget flags "OF")]

/-- Embedding of testjump (peda.py lines 1429-1464).  The backend calls `self.get_eflags()`
and `self.eval_target(opcode, inst)` are passed in as the register value and an
oracle for the (backend-dependent) target evaluation of lines 1376-1427.
Lines 1441-1442: an unresolvable target (`eval_target` returning `None`) is
replaced by the integer 0 before the flag table is consulted. -/
def testjump (eflags : Option Int) (eval_target : String → String → Option Int)
    (opcode inst : String) : Except String (Bool × Option Int) :=
  match get_eflags eflags with
  | none => .ok (false, none)
  | some flags =>
    let next_addr : Int := (eval_target opcode inst).getD 0
    match testjump_cond flags opcode with
    | .error e => .error e
    | .ok c => if c then .ok (true, some next_addr) else .ok (false, none)

/-- Python `str.split()` with no argument: split on whitespace runs, dropping
empty fields. -/
def pySplitWs (s : String) : List String :=
  (s.split Char.isWhitespace).filter (fun t => t ≠ "")

/-- Python `s.strip(",")`: remove leading and trailing commas. -/
def stripCommas (s : String) : String :=
  (((s.toList.dropWhile (fun c => c == ',')).reverse.dropWhile
      (fun c => c == ',')).reverse).asString

/-- The operand extraction `inst.split(":\t")[-1].split()[1].strip(",")` used
for `cbnz`/`cbz` (peda.py lines 1502, 1544); an instruction text with fewer
than two whitespace-separated tokens raises `IndexError`. -/
def extract_rn (inst : String) : Except String String :=
  let last := (inst.splitOn ":\t").getLastD ""
  match (pySplitWs last).get? 1 with
  | some t => .ok (stripCommas t)
  | none => .error "IndexError: list index out of range"

/-- The AArch64 condition table of `aarch64_testjump` (peda.py lines
1481-1498); lines 1490-1491 consult `flags["O"]` for `b.vs`/`b.vc`, a key
the dict of `get_aarch64_cpsr` does not contain. -/
def aarch64_testjump_cond (flags : List (String × Bool)) (opcode : String) :
    Except String Bool :=
  orChain
      [.ok (containsSub "ret" opcode),
       .ok (opcode == "b"),
       andE (.ok (opcode == "b.eq")) (dget flags "Z"),
       andE (.ok (opcode == "b.ne")) (notE (dget flags "Z")),
       andE (.ok (opcode == "b.cs")) (dget flags "C"),
       andE (.ok (opcode == "b.cc")) (notE (dget flags "C")),
       andE (.ok (opcode == "b.mi")) (dget flags "N"),
       andE (.ok (opcode == "b.pl")) (notE (dget flags "N")),
       andE (.ok (opcode == "b.vs")) (dget flags "O"),
       andE (.ok (opcode == "b.vc")) (notE (dget flags "O")),
       andE (andE (.ok (opcode == "b.hi")) (notE (dget flags "Z")))
            (dget flags "C"),
       andE (andE (.ok (opcode == "b.ls")) (notE (dget flags "C")))
            (dget flags "Z"),
       andE (.ok (opcode == "b.ge")) (eqE (dget flags "N") (dget flags "V")),
       andE (.ok (opcode == "b.lt")) (neE (dget flags "N") (dget flags "V")),
       andE (andE (.ok (opcode == "b.gt")) (notE (dget flags "Z")))
            (eqE (dget flags "N") (dget flags "V")),
       andE (andE (.ok (opcode == "b.le")) (dget flags "Z"))
            (neE (dget flags "N") (dget flags "V"))]

/-- Embedding of aarch64_testjump (peda.py lines 1466-1507).  Backend calls
(`self.getreg("cpsr")`, `self.eval_target`, `self.parse_and_eval`) are oracle
parameters. -/
def aarch64_testjump (cpsr : Option Int)
    (eval_target : String → String → Option Int)
    (parse_and_eval : String → Option Int)
    (opcode inst : String) : Except String (Bool × Option Int) :=
  match get_aarch64_cpsr cpsr with
  | none => .ok (false, none)
  | some flags =>
    let next_addr : Int := (eval_target opcode inst).getD 0
    match aarch64_testjump_cond flags opcode with
    | .error e => .error e
    | .ok c =>
      if c then .ok (true, some next_addr)
      else if opcode == "cbnz" || opcode == "cbz" then
        match extract_rn inst with
        | .error e => .error e
        | .ok rn =>
          if parse_and_eval rn == some 0 then .ok (true, some next_addr)
          else .ok (false, none)
      else .ok (false, none)

/-- The ARM condition table of `arm_testjump` (peda.py lines 1524-1540), with
`startswith` opcode matching; lines 1532-1533 consult `flags["O"]`, a key
`get_cpsr`'s dict does not contain. -/
def arm_testjump_cond (flags : List (String × Bool)) (opcode : String) :
    Except String Bool :=
  orChain
      [.ok (opcode == "b"),
       andE (.ok (pyStartswith "beq" opcode)) (dget flags "Z"),
       andE (.ok (pyStartswith "bne" opcode)) (notE (dget flags "Z")),
       andE (.ok (pyStartswith "bcs" opcode)) (dget flags "C"),
       andE (.ok (pyStartswith "bcc" opcode)) (notE (dget flags "C")),
       andE (.ok (pyStartswith "bmi" opcode)) (dget flags "N"),
       andE (.ok (pyStartswith "bpl" opcode)) (notE (dget flags "N")),
       andE (.ok (pyStartswith "bvs" opcode)) (dget flags "O"),
       andE (.ok (pyStartswith "bvc" opcode)) (notE (dget flags "O")),
       andE (andE (.ok (pyStartswith "bhi" opcode)) (notE (dget flags "Z")))
            (dget flags "C"),
       andE (andE (.ok (pyStartswith "bls" opcode)) (notE (dget flags "C")))
            (dget flags "Z"),
       andE (.ok (pyStartswith "bge" opcode)) (eqE (dget flags "N") (dget flags "V")),
       andE (.ok (pyStartswith "blt" opcode)) (neE (dget flags "N") (dget flags "V")),
       andE (andE (.ok (pyStartswith "bgt" opcode)) (notE (dget flags "Z")))
            (eqE (dget flags "N") (dget flags "V")),
       andE (andE (.ok (pyStartswith "ble" opcode)) (dget flags "Z"))
            (neE (dget flags "N") (dget flags "V"))]

/-- Embedding of arm_testjump (peda.py lines 1509-1549).  Same structure as
`aarch64_testjump`, with the ARM CPSR dict. -/
def arm_testjump (cpsr : Option Int)
    (eval_target : String → String → Option Int)
    (parse_and_eval : String → Option Int)
    (opcode inst : String) : Except String (Bool × Option Int) :=
  match get_cpsr cpsr with
  | none => .ok (false, none)
  | some flags =>
    let next_addr : Int := (eval_target opcode inst).getD 0
    match arm_testjump_cond flags opcode with
    | .error e => .error e
    | .ok c =>
      if c then .ok (true, some next_addr)
      else if opcode == "cbnz" || opcode == "cbz" then
        match extract_rn inst with
        | .error e => .error e
        | .ok rn =>
          if parse_and_eval rn == some 0 then .ok (true, some next_addr)
          else .ok (false, none)
      else .ok (false, none)

/-- Result dict of checksec (peda.py lines 2821-2826), with the integer
values the source stores. -/
structure ChecksecResult where
  RELRO : Nat
  CANARY : Nat
  NX : Nat
  PIE : Nat
  FORTIFY : Nat
deriving Repr, DecidableEq

/-- Line 2839-2840 of peda.py: `if "GNU_RELRO" in line: result["RELRO"] |= 2`. -/
def cs_gnurelro (r : ChecksecResult) (line : String) : ChecksecResult :=
  if containsSub "GNU_RELRO" line then { r with RELRO := r.RELRO ||| 2 } else r

/-- Line 2841-2842 of peda.py: `if "BIND_NOW" in line: result["RELRO"] |= 1`. -/
def cs_bindnow (r : ChecksecResult) (line : String) : ChecksecResult :=
  if containsSub "BIND_NOW" line then { r with RELRO := r.RELRO ||| 1 } else r

/-- Line 2843-2844 of peda.py: the `__stack_chk_fail` canary marker. -/
def cs_canary (r : ChecksecResult) (line : String) : ChecksecResult :=
  if containsSub "__stack_chk_fail" line then { r with CANARY := 1 } else r

/-- Line 2845-2846 of peda.py: an RWE GNU_STACK segment disables NX. -/
def cs_nx (r : ChecksecResult) (line : String) : ChecksecResult :=
  if containsSub "GNU_STACK" line && containsSub "RWE" line then { r with NX := 0 } else r

/-- Line 2847-2848 of peda.py: a DYN file type marks a shared object (PIE 4). -/
def cs_dyn (r : ChecksecResult) (line : String) : ChecksecResult :=
  if containsSub "Type:" line && containsSub "DYN (" line then { r with PIE := 4 } else r

/-- Line 2849-2850 of peda.py: a (DEBUG) entry refines PIE 4 into PIE 1. -/
def cs_debug (r : ChecksecResult) (line : String) : ChecksecResult :=
  if containsSub "(DEBUG)" line && r.PIE == 4 then { r with PIE := 1 } else r

/-- Line 2851-2852 of peda.py: a fortified `_chk@` symbol. -/
def cs_fortify (r : ChecksecResult) (line : String) : ChecksecResult :=
  if containsSub "_chk@" line then { r with FORTIFY := 1 } else r

/-- Body of the per-line loop of checksec (peda.py lines 2838-2852): each
marker test is a substring check on the readelf output line, applied in
source order to the running result dict. -/
def checksec_line (r : ChecksecResult) (line : String) : ChecksecResult :=
  cs_fortify (cs_debug (cs_dyn (cs_nx (cs_canary (cs_bindnow
    (cs_gnurelro r line) line) line) line) line) line) line

/-- Embedding of checksec (peda.py lines 2811-2858) over the lines of the
readelf output (`out.splitlines()`); the filename resolution and the
readelf invocation with its "Error:" check are backend I/O and happen
before the loop embedded here.  Line 2854-2855: a RELRO value of exactly 1
(BIND_NOW without GNU_RELRO) is downgraded to 0. -/
def checksec (lines : List String) : ChecksecResult :=
  let r := lines.foldl checksec_line ⟨0, 0, 1, 0, 0⟩
  if r.RELRO == 1 then { r with RELRO := 0 } else r

/-- A Python value that can sit in the third slot of an examine_mem_value
triple: a machine integer (raw word read) or a rendered string (an `x/s`
string, a decoded instruction operand, the empty payload of an immediate,
or the "--> ..." truncation sentinel). -/
inductive PyVal where
  | intV (n : Int)
  | strV (s : String)
deriving Repr, DecidableEq

/-- Modelled from the spec: `utils.to_hex` (imported by peda.py from utils,
a file that is not under src/) renders an integer as a Python hex literal
(`hex(int(v))`). -/
def toHexM (n : Int) : String :=
  if n < 0 then "-0x" ++ (Nat.toDigits 16 n.natAbs).asString
  else "0x" ++ (Nat.toDigits 16 n.natAbs).asString

/-- Value of one hex digit character, if any. -/
def hexVal? (c : Char) : Option Nat :=
  if c.isDigit then some (c.toNat - 48)
  else if 97 ≤ c.toNat ∧ c.toNat ≤ 102 then some (c.toNat - 87)
  else if 65 ≤ c.toNat ∧ c.toNat ≤ 70 then some (c.toNat - 55)
  else none

/-- Parse a non-empty digit string in the given base, `none` on any
out-of-range character. -/
def parseDigits (base : Nat) (l : List Char) : Option Nat :=
  if l = [] then none
  else l.foldl (fun acc c =>
    match acc, hexVal? c with
    | some a, some d => if d < base then some (a * base + d) else none
    | _, _ => none) (some 0)

/-- Modelled from the spec: `utils.to_int` (imported by peda.py from utils,
not under src/) parses a value via `int(str(v), 0)` and returns None on
failure.  Modelled for the literal shapes the engine produces: hex literals
(`0x...`, possibly negative) and decimal digit strings parse; quoted `x/s`
strings, instruction operands and the "--> ..." sentinel parse to None. -/
def toIntM (s : String) : Option Int :=
  match s.toList with
  | '-' :: '0' :: 'x' :: rest => (parseDigits 16 rest).map (fun m => -(m : Int))
  | '0' :: 'x' :: rest => (parseDigits 16 rest).map (fun m => (m : Int))
  | '-' :: rest => (parseDigits 10 rest).map (fun m => -(m : Int))
  | rest => (parseDigits 10 rest).map (fun m => (m : Int))

/-- Python `to_int` applied to a chain payload: an int converts to itself, a
string is parsed. -/
def pyToInt : PyVal → Option Int
  | .intV n => some n
  | .strV s => toIntM s

/-- Python `v == vn` where `v` is the hex string `to_hex(v)` of the current
value and `vn` the payload: a string payload compares as strings, an int
payload never equals a string (Python cross-type ==). -/
def pyEqStrInt (v : Int) (vn : PyVal) : Bool :=
  match vn with
  | .intV _ => false
  | .strV s => toHexM v == s

/-- One chain entry `(v, t, vn)` of examine_mem_reference.  The source
stores `v` as the hex string `to_hex(value)` and converts it back with
`to_int` for every comparison; since the spec's ClassifiedValue stores
`raw: uint` and to_hex/to_int round-trip exactly, the entry carries the raw
integer. -/
abbrev ChainEntry := Int × String × PyVal

/-- Truncation `result[-1] = (_v, _t, "--> ...")` of peda.py lines
2434-2435: the last entry's payload is replaced by the sentinel. -/
def truncLast (result : List ChainEntry) : List ChainEntry :=
  match result.getLast? with
  | none => result
  | some (v, t, _) => result.dropLast ++ [(v, t, .strV "--> ...")]

/-- Body of the `while vn is not None` loop of examine_mem_reference
(peda.py lines 2432-2447), parameterized over the classifier
`self.examine_mem_value` (`emv value` returning `none` models the
(None, None, None) triple, `some (t, none)` a triple with a None payload,
and `some (t, some vn)` a complete triple).  `fuel` bounds the recursion;
the caller passes enough fuel for the depth check to fire first. -/
def emr_loop (emv : Int → Option (String × Option PyVal)) (depth : Int) :
    Nat → List ChainEntry → Int → String → PyVal → List ChainEntry
  | 0, result, _, _, _ => result
  | fuel + 1, result, v, t, vn =>
    if (result.length : Int) > depth then truncLast result
    else
      let result1 := result ++ [(v, t, vn)]
      if pyEqStrInt v vn || (some v == pyToInt vn) then result1
      else
        match pyToInt vn with
        | none => result1
        | some vn_int =>
          if result1.any (fun e => e.1 == vn_int) then result1
          else
            match emv vn_int with
            | none => result1
            | some (_, none) => result1
            | some (t2, some vnp) => emr_loop emv depth fuel result1 vn_int t2 vnp

/-- Embedding of examine_mem_reference (peda.py lines 2416-2449): normalizes
a non-positive depth to 0xffffffff, classifies the start value, and walks
payloads while they convert to addresses, stopping on self-reference,
unparsable payload, revisit of an earlier value, or the depth bound. -/
def examine_mem_reference (emv : Int → Option (String × Option PyVal))
    (value : Int) (depth : Int) : List ChainEntry :=
  let depth1 : Int := if depth ≤ 0 then 0xffffffff else depth
  match emv value with
  | none => []
  | some (_, none) => []
  | some (t, some vn) => emr_loop emv depth1 (depth1.toNat + 2) [] value t vn

/-- One parsed row of a memory map: (start, end, permission string,
region name). -/
abbrev VmRange := Int × Int × String × String

/-- Python page-base computation `address & 0xfffffffffffff000` of peda.py
line 1881: bits 12..63 of the address (bits at and above 64 are cleared by
the mask; the two's-complement view of a negative address coincides with
its value modulo 2^64 on those bits). -/
def pageBase (a : Int) : Int :=
  Int.ediv (Int.emod a ((2 : Int) ^ 64)) 4096 * 4096

/-- Embedding of get_vmrange (peda.py lines 1858-1885): the first map row
containing the address; with an empty map list, a synthesized rwx page when
the backend can read one byte at the address (`read1`), else none. -/
def get_vmrange (maps : List VmRange) (read1 : Int → Bool)
    (address : Option Int) : Option VmRange :=
  match address with
  | none => none
  | some a =>
    if maps ≠ [] then
      maps.find? (fun r => decide (r.1 ≤ a) && decide (r.2.1 > a))
    else if read1 a then some (pageBase a, pageBase a + 4096, "rwx", "unknown")
    else none

/-- Embedding of is_executable (peda.py lines 1888-1903). -/
def is_executable (maps : List VmRange) (read1 : Int → Bool) (address : Option Int) :
    Bool :=
  match get_vmrange maps read1 address with
  | some r => containsSub "x" r.2.2.1
  | none => false

/-- Embedding of is_writable (peda.py lines 1906-1921). -/
def is_writable (maps : List VmRange) (read1 : Int → Bool) (address : Option Int) :
    Bool :=
  match get_vmrange maps read1 address with
  | some r => containsSub "w" r.2.2.1
  | none => false

/-- Embedding of is_address (peda.py lines 1924-1936). -/
def is_address (maps : List VmRange) (read1 : Int → Bool) (value : Option Int) :
    Bool :=
  (get_vmrange maps read1 value).isSome

/-- Backend state consulted by examine_mem_value: the three vmmap queries and
the raw read / disassembly / string-rendering primitives, as oracle
functions. -/
structure Gdb where
  vmmap : List VmRange
  binmap : List VmRange
  heapmap : List VmRange
  read1 : Int → Bool
  read_int : Int → Nat → Option Int
  is_printable : Int → Nat → Bool
  x_s : Int → String
  intsize : Nat
  elfheaders : List (String × (Int × Int × String))
  elfheaders_solib : String → List (String × (Int × Int × String))
  get_disasm : Int → String
  disasm_m : String → Option String

/-- The section or header triple (start, end, type) used by elfheader
results. -/
abbrev Header := String × (Int × Int × String)

/-- The inner examine_data of examine_mem_value (peda.py lines 2344-2349):
read one word; if its byte string is printable, re-render it via `x/s`
(oracle `x_s`), else keep the raw integer; `none` when the read fails. -/
def examine_data (g : Gdb) (value : Int) : Option PyVal :=
  match g.read_int value g.intsize with
  | none => none
  | some out =>
    if g.is_printable out g.intsize then some (.strV (g.x_s value))
    else some (.intV out)

/-- Result triple of examine_mem_value: the all-None triple, or
(to_hex value, type, payload) — carried as the raw integer, the type string
and an optional payload. -/
inductive EmvOut where
  | noneT
  | triple (v : Int) (ty : String) (vn : Option PyVal)
deriving Repr, DecidableEq

/-- Embedding of examine_mem_value (peda.py lines 2333-2414).  A value in no
known range is an immediate ("value" with empty payload); writable ranges
render data/heap; executable ranges consult the section headers sorted by
end address (`sorted(headers.items(), key=lambda x: x[1][1])`) and
disassemble code; anything else renders read-only data.  The disassembly
regex `.*?0x\S+?\s(.*)` is the oracle `disasm_m`; when it does not match,
`m.group(1)` raises AttributeError. -/
def examine_mem_value (g : Gdb) (value : Option Int) : Except String EmvOut :=
  match value with
  | none => .ok .noneT
  | some value =>
    if !(is_address g.vmmap g.read1 (some value)) then
      .ok (.triple value "value" (some (.strV "")))
    else
      let mapname := ((get_vmrange g.vmmap g.read1 (some value)).getD
        (0, 0, "", "")).2.2.2
      if is_writable g.vmmap g.read1 (some value) then
        match examine_data g value with
        | none => .ok .noneT
        | some out =>
          match g.heapmap with
          | [] => .ok (.triple value "data" (some out))
          | (heap_start, heap_end, _, _) :: _ =>
            if heap_start ≤ value ∧ value < heap_end then
              .ok (.triple value "heap" (some out))
            else .ok (.triple value "data" (some out))
      else if is_executable g.vmmap g.read1 (some value) then
        let headers : List Header :=
          if is_address g.binmap g.read1 (some value) then g.elfheaders
          else g.elfheaders_solib mapname
        if headers ≠ [] then
          let sorted := headers.mergeSort (fun x y => decide (x.2.2.1 ≤ y.2.2.1))
          match sorted.find? (fun h => decide (value ≥ h.2.1) && decide (value < h.2.2.1)) with
          | some (_, (_, _, ty)) =>
            if ty == "code" then
              match g.disasm_m (g.get_disasm value) with
              | some op => .ok (.triple value "code" (some (.strV op)))
              | none => .error "AttributeError"
            else .ok (.triple value "rodata" (examine_data g value))
          | none => .ok (.triple value "rodata" (examine_data g value))
        else
          let out := g.get_disasm value
          if containsSub "(bad)" out then
            .ok (.triple value "rodata" (examine_data g value))
          else
            match g.disasm_m out with
            | some op => .ok (.triple value "code" (some (.strV op)))
            | none => .error "AttributeError"
      else
        match examine_data g value with
        | none => .ok (.triple value "rodata" (some (.strV "MemError")))
        | some out => .ok (.triple value "rodata" (some out))

/-- Python `s.strip()`: remove leading and trailing whitespace. -/
def pyStripWs (s : String) : String :=
  (((s.toList.dropWhile Char.isWhitespace).reverse.dropWhile
      Char.isWhitespace).reverse).asString

/-- Python dict assignment `d[k] = v` on an insertion-ordered string-keyed
dict: overwrite in place if the key exists, else append. -/
def dictInsert (d : List (String × (Int × Int × String))) (k : String)
    (v : Int × Int × String) : List (String × (Int × Int × String)) :=
  if d.any (fun p => p.1 == k) then
    d.map (fun p => if p.1 == k then (k, v) else p)
  else d ++ [(k, v)]

/-- Body of the match loop of elfheader (peda.py lines 2532-2549): skip a
row whose start is below its file offset; if the parsed start is below the
runtime base, add the base to start and end; classify the attribute string;
store under the stripped header name. -/
def elfheader_row (elfbase : Int) (elfinfo : List (String × (Int × Int × String)))
    (row : Int × Int × Int × String × String) :
    List (String × (Int × Int × String)) :=
  match row with
  | (start, end_, offset, hname, attr) =>
    if start < offset then elfinfo
    else
      let se := if start < elfbase then (start + elfbase, end_ + elfbase)
        else (start, end_)
      let htype := if containsSub "CODE" attr then "code"
        else if containsSub "READONLY" attr then "rodata"
        else "data"
      dictInsert elfinfo (pyStripWs hname) (se.1, se.2, htype)

/-- The runtime base of the loaded image (peda.py lines 2521-2524):
`binmap[0][0] if binmap else 0` when the debuggee has a pid, else 0. -/
def elf_base (pid : Bool) (binmap : List VmRange) : Int :=
  if pid then (match binmap with
    | [] => 0
    | r :: _ => r.1) else 0

/-- Embedding of elfheader (peda.py lines 2509-2561) over the rows matched
by the section regex from "maintenance info sections" output (each row the
to_int-converted start, end, offset plus name and attribute text).  The
optional name filter of lines 2551-2560 selects an exact key, else all keys
containing the name. -/
def elfheader (pid : Bool) (binmap : List VmRange)
    (rows : List (Int × Int × Int × String × String)) (name : Option String) :
    List (String × (Int × Int × String)) :=
  let elfinfo := rows.foldl (elfheader_row (elf_base pid binmap)) []
  match name with
  | none => elfinfo
  | some nm =>
    if elfinfo.any (fun p => p.1 == nm) then
      elfinfo.filter (fun p => p.1 == nm)
    else
      elfinfo.filter (fun p => containsSub nm p.1)

/-- A produced section entry descends from a parsed row by the source
rebasing rule: the file offset is at most the parsed start, and start/end
are both shifted by the runtime base exactly when the parsed start is below
that base. -/
def rebasedFrom (elfbase : Int) (row : Int × Int × Int × String × String)
    (p : String × (Int × Int × String)) : Prop :=
  row.2.2.1 ≤ row.1 ∧
  ((row.1 < elfbase ∧ p.2.1 = row.1 + elfbase ∧ p.2.2.1 = row.2.1 + elfbase) ∨
   (¬ row.1 < elfbase ∧ p.2.1 = row.1 ∧ p.2.2.1 = row.2.1))

/-- Embedding of _get_function_args_64 (peda.py lines 928-961).  The two
regex scans of lines 934-936 (operand extraction from the disassembled
window, then the argument-register pattern di|si|dx|cx|r8|r9) are
backend-text parsing and enter as the match list `m0`; line 937 uniqifies
it (`list(set(m))`, modelled as dedup — only membership and 0/1 counts are
consumed).  The `argc` parameter of the source is overwritten by the
unconditional `argc = 0` of line 938 and never read: inference always runs.
`regs` is the full register dict of `self.getregs()`. -/
def _get_function_args_64 (m0 : List String) (regs : String → Int)
    (argc0 : Option Int) : List Int :=
  let arg_order := ["rdi", "rsi", "rdx", "rcx", "r8", "r9"]
  let m := m0.dedup
  let argc1 : Nat := 0
  let argc2 := if m.contains "si" && !(m.contains "di") then argc1 + 1 else argc1
  let argc3 := argc2 + m.count "di"
  let argc4 := if argc3 > 0 then argc3 + m.count "si" else argc3
  let argc5 := if argc4 > 1 then argc4 + m.count "dx" else argc4
  let argc6 := if argc5 > 2 then argc5 + m.count "cx" else argc5
  let argc7 := if argc6 > 3 then argc6 + m.count "r8" else argc6
  let argc8 := if argc7 > 4 then argc7 + m.count "r9" else argc7
  if argc8 = 0 then []
  else (List.range argc8).map (fun i => regs (arg_order.getD i ""))

/-- Embedding of _get_function_args_ppc (peda.py lines 1047-1081): line 1053
computes a findall over the window, but line 1054 `matches = p.findall(code)`
then references the name `p`, which is bound nowhere in the function, class
or module scope (the only assignments to `p` in peda.py are locals of a
different method, lines 2200-2203), so every call raises NameError before
any of the remaining lines can run; they are dead code. -/
def _get_function_args_ppc (code : String) (regs : String → Int)
    (argc0 : Option Int) : Except String (List Int) :=
  .error "NameError: name p is not defined"

section CondTables

variable (b0 b2 b4 b6 b7 b8 b9 b10 b11 : Bool)

/-- Value of the x86 condition table at opcode "je": the ZF entry. -/
lemma testjump_cond_je :
    testjump_cond (eflagsDict b0 b2 b4 b6 b7 b8 b9 b10 b11) "je" = .ok b6 := by
  cases b6 <;> rfl

/-- Value of the x86 condition table at opcode "jge": SF == OF. -/
lemma testjump_cond_jge :
    testjump_cond (eflagsDict b0 b2 b4 b6 b7 b8 b9 b10 b11) "jge" =
      .ok (b7 == b11) := by
  cases b7 <;> cases b11 <;> rfl

/-- Value of the x86 condition table at opcode "jne": not ZF. -/
lemma testjump_cond_jne :
    testjump_cond (eflagsDict b0 b2 b4 b6 b7 b8 b9 b10 b11) "jne" = .ok (!b6) := by
  cases b6 <;> rfl

/-- Value of the x86 condition table at opcode "jnz": the OF entry (peda.py
line 1460 reads flags["OF"], not flags["ZF"]). -/
lemma testjump_cond_jnz :
    testjump_cond (eflagsDict b0 b2 b4 b6 b7 b8 b9 b10 b11) "jnz" = .ok b11 := by
  cases b11 <;> rfl

end CondTables

/-- Value of the AArch64 condition table at opcode "b.le": Z and (N != V). -/
lemma aarch64_testjump_cond_ble (f i a d v c z n : Bool) :
    aarch64_testjump_cond (a64Dict f i a d v c z n) "b.le" =
      .ok (z && (n != v)) := by
  cases z <;> cases n <;> cases v <;> rfl

/-- Helper: the taken/target shape of testjump once the flag dict and the
condition value are known. -/
lemma testjump_eq_of_cond (e : Int) (he : ¬ e = 0)
    (et : String → String → Option Int) (op inst : String) (b : Bool)
    (hc : testjump_cond (eflagsDict (pyBit e 0) (pyBit e 2) (pyBit e 4)
      (pyBit e 6) (pyBit e 7) (pyBit e 8) (pyBit e 9) (pyBit e 10)
      (pyBit e 11)) op = .ok b) :
    testjump (some e) et op inst =
      .ok (b, if b then some ((et op inst).getD 0) else none) := by
  have hef : get_eflags (some e) = some (eflagsDict (pyBit e 0) (pyBit e 2)
      (pyBit e 4) (pyBit e 6) (pyBit e 7) (pyBit e 8) (pyBit e 9) (pyBit e 10)
      (pyBit e 11)) := by
    simp [get_eflags, he]
  simp only [testjump, hef, hc]
  cases b <;> simp

/-- C1 (counterexample): with ZF set (eflags = 0x40) and an unresolvable
target, testjump "je" returns (True, 0) — not (True, None) as the claim
states: line 1441-1442 of peda.py replace a None target with 0. -/
theorem testjump_unresolved_counterexample :
    testjump (some 64) (fun _ _ => none) "je" "x" = .ok (true, some 0) ∧
    (Except.ok (true, some 0) : Except String (Bool × Option Int)) ≠
      .ok (true, none) := by
  constructor
  · rfl
  · simp

/-- C1 (amended): when eval_target yields no address, the taken boolean of
testjump / aarch64_testjump / arm_testjump is still computed from the flag
state exactly as for a resolvable target, but the returned target is 0 (not
None) when the branch is taken, and None when it is not taken. -/
theorem testjump_unresolved_substitutes_zero
    (ef a64cpsr armcpsr : Option Int) (et etr : String → String → Option Int)
    (pe : String → Option Int) (op inst : String) (h : et op inst = none) :
    ((testjump ef et op inst).map Prod.fst =
        (testjump ef etr op inst).map Prod.fst ∧
      ∀ b t, testjump ef et op inst = .ok (b, t) →
        t = if b then some 0 else none) ∧
    ((aarch64_testjump a64cpsr et pe op inst).map Prod.fst =
        (aarch64_testjump a64cpsr etr pe op inst).map Prod.fst ∧
      ∀ b t, aarch64_testjump a64cpsr et pe op inst = .ok (b, t) →
        t = if b then some 0 else none) ∧
    ((arm_testjump armcpsr et pe op inst).map Prod.fst =
        (arm_testjump armcpsr etr pe op inst).map Prod.fst ∧
      ∀ b t, arm_testjump armcpsr et pe op inst = .ok (b, t) →
        t = if b then some 0 else none) := by
  refine ⟨⟨?_, ?_⟩, ⟨?_, ?_⟩, ⟨?_, ?_⟩⟩
  · cases hf : get_eflags ef with
    | none => simp [testjump, hf]
    | some flags =>
      simp only [testjump, hf]
      cases hc : testjump_cond flags op with
      | error e => simp
      | ok c => cases c <;> simp [Except.map]
  · intro b t hbt
    cases hf : get_eflags ef with
    | none =>
      simp [testjump, hf] at hbt
      rcases hbt with ⟨rfl, rfl⟩
      simp
    | some flags =>
      simp only [testjump, hf] at hbt
      cases hc : testjump_cond flags op with
      | error e => simp [hc] at hbt
      | ok c =>
        simp only [hc] at hbt
        cases c <;> simp_all [h]
  · cases hf : get_aarch64_cpsr a64cpsr with
    | none => simp [aarch64_testjump, hf]
    | some flags =>
      simp only [aarch64_testjump, hf]
      cases hc : aarch64_testjump_cond flags op with
      | error e => simp
      | ok c =>
        cases c
        · simp only [Bool.false_eq_true, if_false]
          by_cases hz : (op == "cbnz" || op == "cbz") = true
          · simp only [hz, if_true]
            cases hrn : extract_rn inst with
            | error e => simp
            | ok rn =>
              by_cases hpe : (pe rn == some 0) = true <;> simp [hpe, Except.map]
          · simp only [hz]
            simp
        · simp [Except.map]
  · intro b t hbt
    cases hf : get_aarch64_cpsr a64cpsr with
    | none =>
      simp [aarch64_testjump, hf] at hbt
      rcases hbt with ⟨rfl, rfl⟩
      simp
    | some flags =>
      simp only [aarch64_testjump, hf] at hbt
      cases hc : aarch64_testjump_cond flags op with
      | error e => simp [hc] at hbt
      | ok c =>
        simp only [hc] at hbt
        cases c
        · simp only [Bool.false_eq_true, if_false] at hbt
          by_cases hz : (op == "cbnz" || op == "cbz") = true
          · simp only [hz, if_true] at hbt
            cases hrn : extract_rn inst with
            | error e => simp [hrn] at hbt
            | ok rn =>
              simp only [hrn] at hbt
              by_cases hpe : (pe rn == some 0) = true <;> simp_all [h]
          · simp only [hz] at hbt
            simp_all [h]
        · simp_all [h]
  · cases hf : get_cpsr armcpsr with
    | none => simp [arm_testjump, hf]
    | some flags =>
      simp only [arm_testjump, hf]
      cases hc : arm_testjump_cond flags op with
      | error e => simp
      | ok c =>
        cases c
        · simp only [Bool.false_eq_true, if_false]
          by_cases hz : (op == "cbnz" || op == "cbz") = true
          · simp only [hz, if_true]
            cases hrn : extract_rn inst with
            | error e => simp
            | ok rn =>
              by_cases hpe : (pe rn == some 0) = true <;> simp [hpe, Except.map]
          · simp only [hz]
            simp
        · simp [Except.map]
  · intro b t hbt
    cases hf : get_cpsr armcpsr with
    | none =>
      simp [arm_testjump, hf] at hbt
      rcases hbt with ⟨rfl, rfl⟩
      simp
    | some flags =>
      simp only [arm_testjump, hf] at hbt
      cases hc : arm_testjump_cond flags op with
      | error e => simp [hc] at hbt
      | ok c =>
        simp only [hc] at hbt
        cases c
        · simp only [Bool.false_eq_true, if_false] at hbt
          by_cases hz : (op == "cbnz" || op == "cbz") = true
          · simp only [hz, if_true] at hbt
            cases hrn : extract_rn inst with
            | error e => simp [hrn] at hbt
            | ok rn =>
              simp only [hrn] at hbt
              by_cases hpe : (pe rn == some 0) = true <;> simp_all [h]
          · simp only [hz] at hbt
            simp_all [h]
        · simp_all [h]

/-- C1 (witness): the amended theorem applied at a concrete state — eflags
0x40, an unresolvable and a resolvable target oracle. -/
theorem testjump_unresolved_substitutes_zero_witness :
    (testjump (some 64) (fun _ _ => none) "je" "x").map Prod.fst =
      (testjump (some 64) (fun _ _ => some 5) "je" "x").map Prod.fst :=
  (testjump_unresolved_substitutes_zero (some 64) none none
    (fun _ _ => none) (fun _ _ => some 5) (fun _ => none) "je" "x" rfl).1.1

/-- C5 (code bug): for the overflow conditions b.vs / b.vc / bvs / bvc,
aarch64_testjump and arm_testjump read flags["O"], a key neither CPSR flag
dict contains, so every such call raises KeyError instead of returning a
(bool, target) pair. -/
theorem overflow_condition_keyerror (c : Int)
    (et : String → String → Option Int) (pe : String → Option Int)
    (inst : String) :
    aarch64_testjump (some c) et pe "b.vs" inst = .error "KeyError: O" ∧
    aarch64_testjump (some c) et pe "b.vc" inst = .error "KeyError: O" ∧
    arm_testjump (some c) et pe "bvs" inst = .error "KeyError: O" ∧
    arm_testjump (some c) et pe "bvc" inst = .error "KeyError: O" :=
  ⟨rfl, rfl, rfl, rfl⟩

/-- C9: the branch-taken decision follows the fixed per-architecture tables —
x86 "je" is taken iff ZF (bit 6), x86 "jge" iff SF == OF (bits 7 and 11),
AArch64 "b.le" iff Z and (N != V) (bits 30, 31, 28); and x86-64 "je" with
ZF set yields (True, target) for the decoded target. -/
theorem branch_condition_tables :
    (∀ (e : Int) (et : String → String → Option Int) (inst : String), e ≠ 0 →
      testjump (some e) et "je" inst =
        .ok (pyBit e 6, if pyBit e 6 then some ((et "je" inst).getD 0) else none)) ∧
    (∀ (e : Int) (et : String → String → Option Int) (inst : String), e ≠ 0 →
      testjump (some e) et "jge" inst =
        .ok (pyBit e 7 == pyBit e 11,
          if pyBit e 7 == pyBit e 11 then some ((et "jge" inst).getD 0) else none)) ∧
    (∀ (c : Int) (et : String → String → Option Int) (pe : String → Option Int)
        (inst : String),
      aarch64_testjump (some c) et pe "b.le" inst =
        .ok (pyBit c 30 && (pyBit c 31 != pyBit c 28),
          if pyBit c 30 && (pyBit c 31 != pyBit c 28)
          then some ((et "b.le" inst).getD 0) else none)) ∧
    (∀ (e : Int) (et : String → String → Option Int) (inst : String) (t : Int),
      e ≠ 0 → pyBit e 6 = true → et "je" inst = some t →
      testjump (some e) et "je" inst = .ok (true, some t)) := by
  refine ⟨?_, ?_, ?_, ?_⟩
  · intro e et inst he
    exact testjump_eq_of_cond e he et "je" inst _ (testjump_cond_je ..)
  · intro e et inst he
    exact testjump_eq_of_cond e he et "jge" inst _ (testjump_cond_jge ..)
  · intro c et pe inst
    simp only [aarch64_testjump, get_aarch64_cpsr, aarch64_testjump_cond_ble]
    cases h : (pyBit c 30 && (pyBit c 31 != pyBit c 28)) <;> simp
  · intro e et inst t he hz hres
    have := testjump_eq_of_cond e he et "je" inst _ (testjump_cond_je ..)
    rw [this, hz, hres]
    simp

/-- C9 (witness): eflags 0x40 (ZF set), resolvable target 5; je is taken to 5. -/
theorem branch_condition_tables_witness :
    testjump (some 64) (fun _ _ => some 5) "je" "i" = .ok (true, some 5) :=
  branch_condition_tables.2.2.2 64 (fun _ _ => some 5) "i" 5 (by decide)
    (by decide) rfl

/-- C10: testjump reports "jnz" as taken exactly when OF (bit 11) is set,
while "jne" is taken exactly when ZF (bit 6) is clear; at the flag state
ZF=0, OF=0 (eflags = 2) the two mnemonics of the same instruction disagree. -/
theorem jnz_jne_divergence :
    (∀ (e : Int) (et : String → String → Option Int) (inst : String), e ≠ 0 →
      testjump (some e) et "jnz" inst =
        .ok (pyBit e 11,
          if pyBit e 11 then some ((et "jnz" inst).getD 0) else none)) ∧
    (∀ (e : Int) (et : String → String → Option Int) (inst : String), e ≠ 0 →
      testjump (some e) et "jne" inst =
        .ok (!pyBit e 6,
          if !pyBit e 6 then some ((et "jne" inst).getD 0) else none)) ∧
    (testjump (some 2) (fun _ _ => some 7) "jne" "i" = .ok (true, some 7) ∧
      testjump (some 2) (fun _ _ => some 7) "jnz" "i" = .ok (false, none)) := by
  refine ⟨?_, ?_, ?_, ?_⟩
  · intro e et inst he
    exact testjump_eq_of_cond e he et "jnz" inst _ (testjump_cond_jnz ..)
  · intro e et inst he
    exact testjump_eq_of_cond e he et "jne" inst _ (testjump_cond_jne ..)
  · rfl
  · rfl

/-- C10 (witness): the first conjunct applied at the concrete state eflags=2. -/
theorem jnz_jne_divergence_witness :
    testjump (some 2) (fun _ _ => some 7) "jnz" "i" =
      .ok (pyBit 2 11, if pyBit 2 11 then some 7 else none) := by
  have := jnz_jne_divergence.1 2 (fun _ _ => some 7) "i" (by decide)
  simpa using this

/-- RELRO projections of the seven per-line update steps. -/
lemma cs_gnurelro_RELRO (r : ChecksecResult) (line : String) :
    (cs_gnurelro r line).RELRO =
      if containsSub "GNU_RELRO" line then r.RELRO ||| 2 else r.RELRO := by
  unfold cs_gnurelro
  split <;> rfl

lemma cs_bindnow_RELRO (r : ChecksecResult) (line : String) :
    (cs_bindnow r line).RELRO =
      if containsSub "BIND_NOW" line then r.RELRO ||| 1 else r.RELRO := by
  unfold cs_bindnow
  split <;> rfl

lemma cs_canary_RELRO (r : ChecksecResult) (line : String) :
    (cs_canary r line).RELRO = r.RELRO := by
  unfold cs_canary
  split <;> rfl

lemma cs_nx_RELRO (r : ChecksecResult) (line : String) :
    (cs_nx r line).RELRO = r.RELRO := by
  unfold cs_nx
  split <;> rfl

lemma cs_dyn_RELRO (r : ChecksecResult) (line : String) :
    (cs_dyn r line).RELRO = r.RELRO := by
  unfold cs_dyn
  split <;> rfl

lemma cs_debug_RELRO (r : ChecksecResult) (line : String) :
    (cs_debug r line).RELRO = r.RELRO := by
  unfold cs_debug
  split <;> rfl

lemma cs_fortify_RELRO (r : ChecksecResult) (line : String) :
    (cs_fortify r line).RELRO = r.RELRO := by
  unfold cs_fortify
  split <;> rfl

/-- Projection of the per-line update onto the RELRO field. -/
lemma checksec_line_RELRO (r : ChecksecResult) (line : String) :
    (checksec_line r line).RELRO =
      if containsSub "BIND_NOW" line then
        (if containsSub "GNU_RELRO" line then r.RELRO ||| 2 else r.RELRO) ||| 1
      else
        (if containsSub "GNU_RELRO" line then r.RELRO ||| 2 else r.RELRO) := by
  rw [checksec_line, cs_fortify_RELRO, cs_debug_RELRO, cs_dyn_RELRO, cs_nx_RELRO,
    cs_canary_RELRO, cs_bindnow_RELRO, cs_gnurelro_RELRO]

/-- RELRO stays at most 3 through the fold. -/
lemma checksec_fold_RELRO_le (lines : List String) :
    ∀ r : ChecksecResult, r.RELRO ≤ 3 →
      (lines.foldl checksec_line r).RELRO ≤ 3 := by
  induction lines with
  | nil => intro r h; exact h
  | cons l ls ih =>
    intro r h
    refine ih _ ?_
    rw [checksec_line_RELRO]
    have h2 : r.RELRO ||| 2 ≤ 3 := by
      interval_cases h : r.RELRO <;> decide
    split_ifs <;> try assumption
    · revert h2
      generalize r.RELRO ||| 2 = a
      intro h2
      interval_cases a <;> decide
    · revert h
      generalize r.RELRO = a
      intro h
      interval_cases a <;> decide

/-- Without a GNU_RELRO line RELRO stays at most 1 through the fold. -/
lemma checksec_fold_RELRO_le_one (lines : List String)
    (hng : ∀ l ∈ lines, containsSub "GNU_RELRO" l = false) :
    ∀ r : ChecksecResult, r.RELRO ≤ 1 →
      (lines.foldl checksec_line r).RELRO ≤ 1 := by
  induction lines with
  | nil => intro r h; exact h
  | cons l ls ih =>
    intro r h
    refine ih (fun x hx => hng x (List.mem_cons_of_mem l hx)) _ ?_
    rw [checksec_line_RELRO, hng l (List.mem_cons_self l ls)]
    simp only [if_false, Bool.false_eq_true]
    split_ifs
    · revert h
      generalize r.RELRO = a
      intro h
      interval_cases a <;> decide
    · exact h

/-- C7: an image with BIND_NOW but no GNU_RELRO reports RELRO = 0, and for
every image the reported RELRO value is 0, 2 or 3. -/
theorem checksec_bind_now_downgrade (lines : List String)
    (h1 : ∃ l ∈ lines, containsSub "BIND_NOW" l = true)
    (h2 : ∀ l ∈ lines, containsSub "GNU_RELRO" l = false) :
    (checksec lines).RELRO = 0 ∧
    ∀ lines2 : List String,
      (checksec lines2).RELRO = 0 ∨ (checksec lines2).RELRO = 2 ∨
        (checksec lines2).RELRO = 3 := by
  constructor
  · have hle := checksec_fold_RELRO_le_one lines h2 ⟨0, 0, 1, 0, 0⟩ (by decide)
    unfold checksec
    by_cases hone : (lines.foldl checksec_line ⟨0, 0, 1, 0, 0⟩).RELRO == 1
    · simp [hone]
    · simp only [hone, if_false, Bool.false_eq_true]
      have : (lines.foldl checksec_line ⟨0, 0, 1, 0, 0⟩).RELRO ≠ 1 := by
        simpa using hone
      omega
  · intro lines2
    have hle := checksec_fold_RELRO_le lines2 ⟨0, 0, 1, 0, 0⟩ (by decide)
    unfold checksec
    by_cases hone : (lines2.foldl checksec_line ⟨0, 0, 1, 0, 0⟩).RELRO == 1
    · simp [hone]
    · simp only [hone, if_false, Bool.false_eq_true]
      have hne : (lines2.foldl checksec_line ⟨0, 0, 1, 0, 0⟩).RELRO ≠ 1 := by
        simpa using hone
      omega

/-- C7 (witness): a one-line header listing containing BIND_NOW only. -/
theorem checksec_bind_now_downgrade_witness :
    (checksec ["Flags: BIND_NOW"]).RELRO = 0 :=
  (checksec_bind_now_downgrade ["Flags: BIND_NOW"]
    ⟨"Flags: BIND_NOW", by simp, by decide⟩ (by decide)).1

/-- Truncation never changes the chain length. -/
lemma truncLast_length (l : List ChainEntry) : (truncLast l).length = l.length := by
  unfold truncLast
  cases h : l.getLast? with
  | none => rfl
  | some e =>
    obtain ⟨v, t, p⟩ := e
    have hne : l ≠ [] := by
      intro h2
      subst h2
      simp at h
    have hpos : 0 < l.length := List.length_pos.mpr hne
    simp [List.length_dropLast]
    omega

/-- The loop never grows the chain past depth + 1 entries. -/
lemma emr_loop_length_le (emv : Int → Option (String × Option PyVal))
    (depth : Int) :
    ∀ (fuel : Nat) (result : List ChainEntry) (v : Int) (t : String) (vn : PyVal),
      result.length ≤ depth.toNat + 1 →
      (emr_loop emv depth fuel result v t vn).length ≤ depth.toNat + 1 := by
  intro fuel
  induction fuel with
  | zero =>
    intro result v t vn h
    simpa [emr_loop] using h
  | succ n ih =>
    intro result v t vn h
    by_cases hgt : (result.length : Int) > depth
    · simp [emr_loop, hgt, truncLast_length, h]
    · have h1 : (result ++ [(v, t, vn)]).length ≤ depth.toNat + 1 := by
        simp only [List.length_append, List.length_singleton]
        omega
      rw [emr_loop, if_neg hgt]
      dsimp only
      split
      · exact h1
      · split
        · exact h1
        · split
          · exact h1
          · split
            · exact h1
            · exact h1
            · exact ih _ _ _ _ h1

/-- A list of pairwise distinct values drawn from `as` is no longer than
`as`. -/
lemma length_le_of_nodup_subset (l as : List Int) (hn : l.Nodup)
    (hs : ∀ x ∈ l, x ∈ as) : l.length ≤ as.length := by
  calc l.length = l.toFinset.card := (List.toFinset_card_of_nodup hn).symm
  _ ≤ as.toFinset.card := by
      refine Finset.card_le_card (fun x hx => ?_)
      rw [List.mem_toFinset] at hx ⊢
      exact hs x hx
  _ ≤ as.length := List.toFinset_card_le as

/-- Over a pointer structure closed inside the address list `as`, the loop
never produces more entries than `as` has addresses: all stored values are
distinct members of `as`. -/
lemma emr_loop_cycle_le (emv : Int → Option (String × Option PyVal))
    (depth : Int) (as : List Int)
    (hclose : ∀ x ∈ as, ∃ t y, emv x = some (t, some (.intV y)) ∧ y ∈ as) :
    ∀ (fuel : Nat) (result : List ChainEntry) (v : Int) (t : String) (y : Int),
      (result.map (fun e => e.1)).Nodup →
      (∀ x ∈ result.map (fun e => e.1), x ∈ as) →
      v ∈ as → v ∉ result.map (fun e => e.1) → y ∈ as →
      (emr_loop emv depth fuel result v t (.intV y)).length ≤ as.length := by
  intro fuel
  induction fuel with
  | zero =>
    intro result v t y hn hs hv hnv hy
    rw [show emr_loop emv depth 0 result v t (.intV y) = result from rfl]
    have := length_le_of_nodup_subset (result.map (fun e => e.1)) as hn hs
    simpa using this
  | succ n ih =>
    intro result v t y hn hs hv hnv hy
    have hmap1 : (result ++ [(v, t, PyVal.intV y)]).map (fun e => e.1) =
        result.map (fun e => e.1) ++ [v] := by simp
    have hn1 : ((result ++ [(v, t, PyVal.intV y)]).map (fun e => e.1)).Nodup := by
      rw [hmap1]
      simp [List.nodup_append, hn, hnv]
    have hs1 : ∀ x ∈ (result ++ [(v, t, PyVal.intV y)]).map (fun e => e.1), x ∈ as := by
      rw [hmap1]
      intro x hx
      rcases List.mem_append.mp hx with hx | hx
      · exact hs x hx
      · simp at hx
        subst hx
        exact hv
    have hlen1 : (result ++ [(v, t, PyVal.intV y)]).length ≤ as.length := by
      have := length_le_of_nodup_subset _ as hn1 hs1
      simpa using this
    have hlen0 : result.length ≤ as.length := by
      have := length_le_of_nodup_subset _ as hn
        (fun x hx => hs x hx)
      simpa using this
    by_cases hgt : (result.length : Int) > depth
    · rw [emr_loop, if_pos hgt]
      rw [truncLast_length]
      exact hlen0
    · rw [emr_loop, if_neg hgt]
      by_cases hc1 : (pyEqStrInt v (.intV y) || (some v == pyToInt (.intV y))) = true
      · rw [if_pos hc1]
        exact hlen1
      · rw [if_neg hc1]
        simp only [pyToInt]
        by_cases hmem : ((result ++ [(v, t, PyVal.intV y)]).any (fun e => e.1 == y)) = true
        · rw [if_pos hmem]
          exact hlen1
        · rw [if_neg hmem]
          obtain ⟨t2, z, hemv, hz⟩ := hclose y hy
          rw [hemv]
          refine ih _ y t2 z hn1 hs1 hy ?_ hz
          intro hmemy
          apply hmem
          rw [List.any_eq_true]
          rw [List.mem_map] at hmemy
          obtain ⟨e, he, hey⟩ := hmemy
          exact ⟨e, he, by simp [hey]⟩

/-- A self-pointing value terminates the loop after the first entry. -/
lemma emr_loop_self (emv : Int → Option (String × Option PyVal)) (depth : Int)
    (hd : 1 ≤ depth) (fuel : Nat) (value : Int) (t : String) :
    emr_loop emv depth (fuel + 1) [] value t (.intV value) =
      [(value, t, .intV value)] := by
  have hz : ¬ (((([] : List ChainEntry)).length : Int) > depth) := by
    simp
    omega
  rw [emr_loop, if_neg hz]
  simp [pyEqStrInt, pyToInt]

/-- C6: over a cyclic pointer structure of N addresses (each address
classifying to a pointer to the next, the last back to the first) the walk
from the first address has at most N entries; for any classifier the chain
never exceeds the requested depth bound plus one entry (the sentinel); and
a value that is its own pointer yields a chain of length exactly 1. -/
theorem examine_mem_reference_bounds (depth : Int) (hd : 1 ≤ depth) :
    (∀ (emv : Int → Option (String × Option PyVal)) (as : List Int)
        (h0 : 0 < as.length),
      (∀ i : Fin as.length, ∃ t, emv (as.get i) =
        some (t, some (.intV (as.get ⟨(i.val + 1) % as.length, Nat.mod_lt _ h0⟩)))) →
      (examine_mem_reference emv (as.get ⟨0, h0⟩) depth).length ≤ as.length) ∧
    (∀ (emv : Int → Option (String × Option PyVal)) (value : Int),
      (examine_mem_reference emv value depth).length ≤ depth.toNat + 1) ∧
    (∀ (emv : Int → Option (String × Option PyVal)) (value : Int) (t : String),
      emv value = some (t, some (.intV value)) →
      (examine_mem_reference emv value depth).length = 1) := by
  have hd1 : ¬ depth ≤ 0 := by omega
  refine ⟨?_, ?_, ?_⟩
  · intro emv as h0 hcyc
    have hclose : ∀ x ∈ as, ∃ t y, emv x = some (t, some (.intV y)) ∧ y ∈ as := by
      intro x hx
      obtain ⟨i, rfl⟩ := List.mem_iff_get.mp hx
      obtain ⟨t, ht⟩ := hcyc i
      exact ⟨t, _, ht, List.get_mem as _ _⟩
    obtain ⟨t, y, hemv, hy⟩ := hclose _ (List.get_mem as 0 h0)
    rw [examine_mem_reference]
    rw [if_neg hd1, hemv]
    exact emr_loop_cycle_le emv depth as hclose _ [] _ t y (by simp) (by simp)
      (List.get_mem as 0 h0) (by simp) hy
  · intro emv value
    rw [examine_mem_reference]
    rw [if_neg hd1]
    cases hemv : emv value with
    | none => simp
    | some p =>
      obtain ⟨t, vn⟩ := p
      cases vn with
      | none => simp
      | some vnp =>
        exact emr_loop_length_le emv depth _ [] value t vnp (by simp)
  · intro emv value t hemv
    rw [examine_mem_reference]
    rw [if_neg hd1, hemv]
    dsimp only
    rw [show depth.toNat + 2 = (depth.toNat + 1) + 1 from rfl,
      emr_loop_self emv depth hd (depth.toNat + 1) value t]
    rfl

/-- C6 (witness): a two-address cycle 100 -> 200 -> 100, depth 5; the chain
has at most 2 entries. -/
theorem examine_mem_reference_bounds_witness :
    (examine_mem_reference
      (fun n => if n == 100 then some ("data", some (.intV 200))
        else if n == 200 then some ("data", some (.intV 100)) else none)
      100 5).length ≤ 2 := by
  have h0 : 0 < ([100, 200] : List Int).length := by decide
  have h := (examine_mem_reference_bounds 5 (by decide)).1
    (fun n => if n == 100 then some ("data", some (.intV 200))
      else if n == 200 then some ("data", some (.intV 100)) else none)
    [100, 200] h0 ?_
  · simpa using h
  · intro i
    fin_cases i
    · exact ⟨"data", rfl⟩
    · exact ⟨"data", rfl⟩

/-- C8: a value contained in no known MemoryRange classifies as an
immediate: kind "value" with an empty rendered payload. -/
theorem classify_outside_ranges_is_value (g : Gdb) (value : Int)
    (hmaps : g.vmmap ≠ [])
    (hout : ∀ r ∈ g.vmmap, ¬(r.1 ≤ value ∧ value < r.2.1)) :
    examine_mem_value g (some value) =
      .ok (.triple value "value" (some (.strV ""))) := by
  have hrange : get_vmrange g.vmmap g.read1 (some value) = none := by
    rw [get_vmrange, if_pos hmaps]
    rw [List.find?_eq_none]
    intro r hr
    simp only [Bool.and_eq_true, decide_eq_true_eq]
    intro hcon
    exact hout r hr ⟨hcon.1, by omega⟩
  rw [examine_mem_value]
  rw [show is_address g.vmmap g.read1 (some value) = false from by
    rw [is_address, hrange]; rfl]
  rfl

/-- C8 (witness): the map [(0, 10)] does not contain 100. -/
theorem classify_outside_ranges_is_value_witness :
    examine_mem_value
      { vmmap := [(0, 10, "rw-p", "bin")], binmap := [], heapmap := [],
        read1 := fun _ => false, read_int := fun _ _ => none,
        is_printable := fun _ _ => false, x_s := fun _ => "", intsize := 4,
        elfheaders := [], elfheaders_solib := fun _ => [],
        get_disasm := fun _ => "", disasm_m := fun _ => none }
      (some 100) = .ok (.triple 100 "value" (some (.strV ""))) :=
  classify_outside_ranges_is_value _ 100 (by decide)
    (by intro r hr; fin_cases hr; decide)

/-- Membership after a dict insert: an old entry or the inserted pair. -/
lemma dictInsert_mem (d : List (String × (Int × Int × String))) (k : String)
    (v : Int × Int × String) (p : String × (Int × Int × String))
    (hp : p ∈ dictInsert d k v) : p ∈ d ∨ p = (k, v) := by
  unfold dictInsert at hp
  split at hp
  · obtain ⟨q, hq, hqe⟩ := List.mem_map.mp hp
    by_cases hk : (q.1 == k) = true
    · right
      rw [if_pos hk] at hqe
      exact hqe.symm
    · left
      rw [if_neg hk] at hqe
      exact hqe ▸ hq
  · rcases List.mem_append.mp hp with h | h
    · exact Or.inl h
    · right
      simpa using h
/-- Membership after one row of the elfheader loop: an old entry or an entry
rebased from that row. -/
lemma elfheader_row_mem (elfbase : Int)
    (acc : List (String × (Int × Int × String)))
    (row : Int × Int × Int × String × String)
    (p : String × (Int × Int × String))
    (hp : p ∈ elfheader_row elfbase acc row) :
    p ∈ acc ∨ rebasedFrom elfbase row p := by
  obtain ⟨start, end_, offset, hname, attr⟩ := row
  unfold elfheader_row at hp
  dsimp only at hp
  by_cases hskip : start < offset
  · rw [if_pos hskip] at hp
    exact Or.inl hp
  · rw [if_neg hskip] at hp
    rcases dictInsert_mem _ _ _ _ hp with h | h
    · exact Or.inl h
    · right
      subst h
      unfold rebasedFrom
      refine ⟨by simpa using hskip, ?_⟩
      by_cases hre : start < elfbase
      · left
        simp [hre]
      · right
        simp [hre]

/-- Every entry of the elfheader fold is rebased from some row. -/
lemma elfheader_foldl_mem (elfbase : Int) :
    ∀ (rows : List (Int × Int × Int × String × String))
      (acc : List (String × (Int × Int × String)))
      (p : String × (Int × Int × String)),
      p ∈ rows.foldl (elfheader_row elfbase) acc →
      p ∈ acc ∨ ∃ row ∈ rows, rebasedFrom elfbase row p := by
  intro rows
  induction rows with
  | nil =>
    intro acc p hp
    exact Or.inl hp
  | cons r rs ih =>
    intro acc p hp
    rcases ih (elfheader_row elfbase acc r) p hp with h | ⟨row, hrow, hr⟩
    · rcases elfheader_row_mem elfbase acc r p h with h2 | h2
      · exact Or.inl h2
      · exact Or.inr ⟨r, List.mem_cons_self r rs, h2⟩
    · exact Or.inr ⟨row, List.mem_cons_of_mem r hrow, hr⟩

/-- C2 (counterexample): a PIE image parsed with link-time base L = 0x1000
(.text at 0x1000..0x2000) loaded at runtime base B = 0x10000 yields a .text
start of 0x11000 = link start + B, not 0x1000 + (B − L) = 0xf000 as the
claim requires. -/
theorem elfheader_rebase_counterexample :
    elfheader true [(65536, 131072, "r-xp", "bin")]
      [(4096, 8192, 256, ".text", "CODE")] none =
      [(".text", (69632, 73728, "code"))] ∧
    (69632 : Int) ≠ 4096 + (65536 - 4096) := by
  constructor
  · rfl
  · decide

/-- C2 (amended): with a nonnegative runtime base, every section returned by
elfheader (no name filter) descends from a parsed row with start and end
shifted by the full runtime base exactly when the parsed start is below that
base (equal to link value + (B − L) only when L = 0), and rebasing never
pushes start or end below the parsed values. -/
theorem elfheader_rebase_adds_base (pid : Bool) (binmap : List VmRange)
    (rows : List (Int × Int × Int × String × String))
    (p : String × (Int × Int × String))
    (hbase : 0 ≤ elf_base pid binmap)
    (hp : p ∈ elfheader pid binmap rows none) :
    ∃ row ∈ rows, rebasedFrom (elf_base pid binmap) row p ∧
      row.1 ≤ p.2.1 ∧ row.2.1 ≤ p.2.2.1 := by
  have hp2 : p ∈ rows.foldl (elfheader_row (elf_base pid binmap)) [] := hp
  rcases elfheader_foldl_mem (elf_base pid binmap) rows [] p hp2 with h | ⟨row, hrow, hr⟩
  · simp at h
  · refine ⟨row, hrow, hr, ?_, ?_⟩
    · rcases hr.2 with ⟨_, h1, _⟩ | ⟨_, h1, _⟩ <;> omega
    · rcases hr.2 with ⟨_, _, h2⟩ | ⟨_, _, h2⟩ <;> omega

/-- C2 (witness): the amended theorem applied to the counterexample image. -/
theorem elfheader_rebase_adds_base_witness :
    ∃ row ∈ [((4096 : Int), (8192 : Int), (256 : Int), ".text", "CODE")],
      rebasedFrom (elf_base true [(65536, 131072, "r-xp", "bin")]) row
        (".text", (69632, 73728, "code")) ∧
      row.1 ≤ (69632 : Int) ∧ row.2.1 ≤ (73728 : Int) :=
  elfheader_rebase_adds_base true [(65536, 131072, "r-xp", "bin")]
    [(4096, 8192, 256, ".text", "CODE")] (".text", (69632, 73728, "code"))
    (by decide)
    (by
      rw [show elfheader true [(65536, 131072, "r-xp", "bin")]
        [(4096, 8192, 256, ".text", "CODE")] none =
        [(".text", (69632, 73728, "code"))] from rfl]
      simp)

/-- C3 (code bug): _get_function_args_64 never reads its forced argument
count — any two forced counts give the same result — and with an
instruction window referencing no argument registers a forced count of 2
still yields the empty list instead of the first two convention registers. -/
theorem forced_argc_ignored :
    (∀ (m0 : List String) (regs : String → Int) (a b : Option Int),
      _get_function_args_64 m0 regs a = _get_function_args_64 m0 regs b) ∧
    _get_function_args_64 [] (fun _ => 0) (some 2) = [] ∧
    ([] : List Int) ≠ [0, 0] :=
  ⟨fun _ _ _ _ => rfl, rfl, by decide⟩

/-- C4 (code bug): PowerPC argument inference never returns a list at all —
every call, including an empty window, raises NameError. -/
theorem ppc_args_name_error :
    (∀ (code : String) (regs : String → Int) (argc0 : Option Int),
      _get_function_args_ppc code regs argc0 =
        .error "NameError: name p is not defined") ∧
    _get_function_args_ppc "" (fun _ => 0) none ≠ .ok [] :=
  ⟨fun _ _ _ => rfl, by simp [_get_function_args_ppc]⟩

end Peda
